import Mathlib

/-!
Verification of the SCHC compressor/observer wrappers of `schc_quinn`
(`src/workbench/in-memory-network/src/schc_compressor.rs` and
`src/workbench/in-memory-network/src/schc_observer.rs`).

The wrappers call into the `schc` crate (`compress_packet`, `decompress_packet`,
`build_tree`, `QuicSession`) whose source is not part of this development; the
outcomes of those calls are taken as explicit parameters of the embedded
wrapper functions, and the few facts needed about the missing crate are
modelled from the specification (each such definition is marked
`Modelled from the spec:`).

Bytes are modelled as `Nat` (values < 256 in all concrete uses), machine
counters as `Nat` (the Rust counters are `AtomicUsize`; overflow is not
reachable in the simulated workloads and `fetch_add` is embedded as `+ 1`).
-/

/-- An IP address as the wrapper sees it (`std::net::IpAddr`).  The engine
only inspects whether the address is IPv4 and, if so, its four octets, so
the IPv6 payload is not carried. -/
inductive IpAddr where
  | v4 (a b c d : Nat)
  | v6
deriving DecidableEq, Repr

/-- `std::net::SocketAddr`: an IP address and a port. -/
structure SocketAddr where
  ip : IpAddr
  port : Nat
deriving DecidableEq, Repr

/-- Whether an address is IPv4 (`matches!(addr, IpAddr::V4(..))`). -/
def IpAddr.isV4 : IpAddr → Bool
  | .v4 _ _ _ _ => true
  | .v6 => false

/-- A SCHC rule as the wrapper uses it (`schc::Rule`): the wrapper reads
`rule_id`, `rule_id_length` and `comment`; the field descriptors are opaque
to it and are kept abstract. -/
structure Rule where
  rule_id : Nat
  rule_id_length : Nat
  field_descriptors : List Nat
  comment : Option String
deriving DecidableEq, Repr

/-- The (rule id, rule id length) pair; two rules collide iff their keys agree. -/
def ruleKey (r : Rule) : Nat × Nat :=
  (r.rule_id, r.rule_id_length)

/-- Errors of the `schc` crate surfaced to the wrapper (spec section 7). -/
inductive SchcError where
  | noMatchingRule
  | parserError
  | residueOverflow
  | residueUnderrun
  | reconstructionFailed
deriving DecidableEq, Repr

/-- Successful output of `schc::compress_packet` as consumed by the wrapper. -/
structure CompressionOutput where
  rule_id : Nat
  rule_id_length : Nat
  data : List Nat
  original_header_bits : Nat
  compressed_header_bits : Nat
deriving DecidableEq, Repr

/-- Successful output of `schc::decompress_packet` as consumed by the wrapper. -/
structure DecompressionOutput where
  rule_id : Nat
  full_data : List Nat
  header_data : List Nat
  bits_consumed : Nat
deriving DecidableEq, Repr

/-- `SchcCompressorStats` (schc_compressor.rs lines 21-31). -/
structure SchcCompressorStats where
  packets_compressed : Nat
  packets_decompressed : Nat
  compression_failures : Nat
  decompression_failures : Nat
  total_original_header_bits : Nat
  total_compressed_header_bits : Nat
deriving DecidableEq, Repr

/-- The all-zero statistics record (`SchcCompressorStats::default()`). -/
def emptyStats : SchcCompressorStats :=
  ⟨0, 0, 0, 0, 0, 0⟩

/-- `CompressResult` (schc_compressor.rs lines 70-82). -/
structure CompressResult where
  compressed_packet : List Nat
  original_header_size : Nat
  compressed_header_size : Nat
  rule_id : Nat
  success : Bool
deriving DecidableEq, Repr

/-- `DecompressResult` (schc_compressor.rs lines 85-91). -/
structure DecompressResult where
  decompressed_packet : List Nat
  rule_id : Nat
deriving DecidableEq, Repr

deriving instance DecidableEq for Except

/-!
Checksum arithmetic of the `pnet_packet` crate, which `build_synthetic_packet`
uses to fill in the IPv4 header checksum and the UDP checksum.
-/

/-- Big-endian 16-bit encoding of a value (`u16` field setters of pnet). -/
def be16 (n : Nat) : List Nat :=
  [n / 256 % 256, n % 256]

/-- Sum of the two big-endian 16-bit words of an IPv4 address
(pnet `util::ipv4_word_sum`). -/
def ipv4WordSum (a b c d : Nat) : Nat :=
  (a * 256 + b) + (c * 256 + d)

/-- One pass of pnet `util::sum_be_words`: add up the big-endian 16-bit words
of a byte list, skipping the word whose index is `skip`; `w` is the index of
the current word and `high` tells whether the next byte is a high byte.
A trailing lone byte contributes as a high byte, exactly as in pnet (in pnet
the trailing byte is added unconditionally; in every use below the trailing
word index differs from `skip`, so checking `skip` for it too is equivalent). -/
def sumWordsAux : List Nat → Nat → Bool → Nat → Nat
  | [], _, _, _ => 0
  | b :: rest, w, high, skip =>
      (if w = skip then 0 else if high then b * 256 else b) +
        sumWordsAux rest (if high then w else w + 1) (!high) skip

/-- pnet `util::sum_be_words data skip`. -/
def sumWordsSkip (bytes : List Nat) (skip : Nat) : Nat :=
  sumWordsAux bytes 0 true skip

/-- Carry folding of pnet `util::finalize_checksum`
(`while sum >> 16 != 0 { sum = (sum >> 16) + (sum & 0xFFFF) }`) with an
explicit step bound so that the definition is structural: each loop
iteration strictly decreases the sum while it is at least 65536, so `n`
steps always reach the fixed point and the bound never bites. -/
def foldCarriesFuel : Nat → Nat → Nat
  | 0, n => n
  | fuel + 1, n => if n < 65536 then n else foldCarriesFuel fuel (n / 65536 + n % 65536)

/-- Carry folding of pnet `util::finalize_checksum`. -/
def foldCarries (n : Nat) : Nat :=
  foldCarriesFuel n n

/-- Ones-complement finalization (`!sum as u16` after carry folding). -/
def complement16 (n : Nat) : Nat :=
  65535 - foldCarries n

/-- The IPv4 header built by `build_synthetic_packet` with the checksum field
still zero: version 4, IHL 5 (byte 0x45), DSCP 0, ECN 0, the given total
length, identification 0, flags 0b010 (DF) with fragment offset 0
(bytes 0x40 0x00), TTL 64, protocol 17, then source and destination octets
(schc_compressor.rs lines 458-470). -/
def ipv4HeaderZeroCk (totalLen s0 s1 s2 s3 d0 d1 d2 d3 : Nat) : List Nat :=
  [0x45, 0x00] ++ be16 totalLen ++ [0x00, 0x00, 0x40, 0x00, 64, 17] ++
    [0x00, 0x00] ++ [s0, s1, s2, s3] ++ [d0, d1, d2, d3]

/-- pnet `ipv4::checksum`: ones-complement checksum of the 20-byte header,
skipping word 5 (the checksum field itself). -/
def ipv4HeaderChecksum (totalLen s0 s1 s2 s3 d0 d1 d2 d3 : Nat) : Nat :=
  complement16 (sumWordsSkip (ipv4HeaderZeroCk totalLen s0 s1 s2 s3 d0 d1 d2 d3) 5)

/-- The IPv4 header with the computed checksum spliced into bytes 10-11. -/
def mkIpv4Header (totalLen s0 s1 s2 s3 d0 d1 d2 d3 : Nat) : List Nat :=
  [0x45, 0x00] ++ be16 totalLen ++ [0x00, 0x00, 0x40, 0x00, 64, 17] ++
    be16 (ipv4HeaderChecksum totalLen s0 s1 s2 s3 d0 d1 d2 d3) ++
    [s0, s1, s2, s3] ++ [d0, d1, d2, d3]

/-- The UDP checksum exactly as the source computes it: pnet
`udp::ipv4_checksum` is invoked on a `MutableUdpPacket` wrapping the whole
2000-byte scratch buffer (schc_compressor.rs lines 440-451), so the
pseudo-header length contribution is the buffer length 2000 (not the UDP
datagram length) and the summed bytes are the UDP header (checksum word 3
skipped, still zero), the payload, and the remaining zero padding of the
buffer.  Defined for `payload.length ≤ 1992` (beyond that the source
panics before reaching this computation). -/
def udpChecksumCode (sp dp s0 s1 s2 s3 d0 d1 d2 d3 : Nat) (payload : List Nat) : Nat :=
  complement16
    (ipv4WordSum s0 s1 s2 s3 + ipv4WordSum d0 d1 d2 d3 + 17 + 2000 +
      sumWordsSkip
        (be16 sp ++ be16 dp ++ be16 (8 + payload.length) ++ [0x00, 0x00] ++
          payload ++ List.replicate (1992 - payload.length) 0) 3)

/-- The standard RFC 768 UDP checksum over the IPv4 pseudo-header: the
pseudo-header length contribution is the UDP datagram length `8 + |payload|`
and the summed bytes are exactly the datagram (checksum word skipped, odd
trailing byte padded with zero).  This is the reading of the claim
"the IPv4-pseudoheader checksum"; the source computes `udpChecksumCode`
instead. -/
def udpChecksumRfc (sp dp s0 s1 s2 s3 d0 d1 d2 d3 : Nat) (payload : List Nat) : Nat :=
  complement16
    (ipv4WordSum s0 s1 s2 s3 + ipv4WordSum d0 d1 d2 d3 + 17 + (8 + payload.length) +
      sumWordsSkip
        (be16 sp ++ be16 dp ++ be16 (8 + payload.length) ++ [0x00, 0x00] ++ payload) 3)

/-- The 8-byte UDP header of the synthetic packet: source port, destination
port, length `8 + |payload|`, and the checksum as the source computes it. -/
def mkUdpHeader (sp dp s0 s1 s2 s3 d0 d1 d2 d3 : Nat) (payload : List Nat) : List Nat :=
  be16 sp ++ be16 dp ++ be16 (8 + payload.length) ++
    be16 (udpChecksumCode sp dp s0 s1 s2 s3 d0 d1 d2 d3 payload)

/-- The 14-byte Ethernet header of the synthetic frame: zeroed destination
and source MACs and ethertype 0x0800 (schc_compressor.rs lines 480-482). -/
def ethernetHeader : List Nat :=
  [0, 0, 0, 0, 0, 0] ++ [0, 0, 0, 0, 0, 0] ++ [0x08, 0x00]

/-- `SchcCompressor::build_synthetic_packet` (schc_compressor.rs lines
425-486).  `none` models a panic: the source panics on a non-IPv4 source or
destination address (lines 432-437), and pnet's `set_payload` panics when
the UDP datagram and IPv4 header do not fit the 2000-byte scratch buffer,
i.e. when `20 + 8 + payload.length > 2000`.  Otherwise the frame is the
Ethernet header, the IPv4 header (total length `28 + |payload|`), the UDP
header, and the payload. -/
def buildSyntheticPacket (quic_payload : List Nat) (src dst : SocketAddr) :
    Option (List Nat) :=
  match src.ip, dst.ip with
  | IpAddr.v4 s0 s1 s2 s3, IpAddr.v4 d0 d1 d2 d3 =>
      if quic_payload.length ≤ 1972 then
        some (ethernetHeader ++
          (mkIpv4Header (28 + quic_payload.length) s0 s1 s2 s3 d0 d1 d2 d3 ++
            (mkUdpHeader src.port dst.port s0 s1 s2 s3 d0 d1 d2 d3 quic_payload ++
              quic_payload)))
      else none
  | _, _ => none

/-- The synthetic frame exactly as claim C5 describes it, with the two
checksum values as parameters: a 14-byte Ethernet header with zeroed MACs
and ethertype 0x0800; a 20-byte IPv4 header with version 4, IHL 5, DSCP 0,
ECN 0, total length `28 + |payload|`, identification 0, DF set, fragment
offset 0, TTL 64, protocol 17 and the given header checksum; an 8-byte UDP
header with the ports, length `8 + |payload|` and the given checksum; then
the payload. -/
def claimedFrame (payload : List Nat) (sp dp s0 s1 s2 s3 d0 d1 d2 d3 ipCk udpCk : Nat) :
    List Nat :=
  [0, 0, 0, 0, 0, 0] ++ [0, 0, 0, 0, 0, 0] ++ [0x08, 0x00] ++
    [0x45, 0x00] ++ be16 (28 + payload.length) ++ [0x00, 0x00] ++ [0x40, 0x00] ++
    [64, 17] ++ be16 ipCk ++ [s0, s1, s2, s3] ++ [d0, d1, d2, d3] ++
    be16 sp ++ be16 dp ++ be16 (8 + payload.length) ++ be16 udpCk ++
    payload

/-!
The session façade: `SchcCompressor::compress` and
`SchcCompressor::decompress`.  The outcome of the call into the `schc`
crate (`compress_packet` / `decompress_packet`) is passed as an explicit
parameter; everything else follows the source line by line.
-/

/-- `SchcCompressor::compress` (schc_compressor.rs lines 150-275).
`cp` is the outcome of `compress_packet` on the synthetic frame.  The
result is `none` when `build_synthetic_packet` panics.  On success
(lines 189-257): `original_header_bytes = ceil(original_header_bits/8)`,
the application payload starts at
`min (original_header_bytes - 28) payload.length` (`saturating_sub`, then
`min`, lines 210-212), the compressed packet is the SCHC data followed by
the payload tail, and `packets_compressed`, `total_original_header_bits`
and `total_compressed_header_bits` advance.  On failure (lines 259-273)
the original payload is returned with `success := false` and only
`compression_failures` advances. -/
def SchcCompressor.compress (cp : Except SchcError CompressionOutput)
    (quic_payload : List Nat) (source_addr dest_addr : SocketAddr)
    (is_outgoing : Bool) (node_id : String) (stats : SchcCompressorStats) :
    Option (CompressResult × SchcCompressorStats) :=
  match buildSyntheticPacket quic_payload source_addr dest_addr with
  | none => none
  | some _synthetic_packet =>
      match cp with
      | Except.ok result =>
          let original_header_bytes := (result.original_header_bits + 7) / 8
          let compressed_header_bytes := (result.compressed_header_bits + 7) / 8
          let quic_header_bytes := original_header_bytes - (20 + 8)
          let app_payload_start := min quic_header_bytes quic_payload.length
          some
            ({ compressed_packet :=
                 result.data ++ quic_payload.drop app_payload_start,
               original_header_size := original_header_bytes,
               compressed_header_size := compressed_header_bytes,
               rule_id := result.rule_id,
               success := true },
             { stats with
                 packets_compressed := stats.packets_compressed + 1,
                 total_original_header_bits :=
                   stats.total_original_header_bits + result.original_header_bits,
                 total_compressed_header_bits :=
                   stats.total_compressed_header_bits + result.compressed_header_bits })
      | Except.error _e =>
          some
            ({ compressed_packet := quic_payload,
               original_header_size := 0,
               compressed_header_size := 0,
               rule_id := 0,
               success := false },
             { stats with
                 compression_failures := stats.compression_failures + 1 })

/-- `SchcCompressor::decompress` (schc_compressor.rs lines 345-422).
`dp` is the outcome of `decompress_packet`.  On success: the SCHC prefix
occupies `ceil(bits_consumed/8)` bytes of the input, the QUIC header is
`full_data` past index 28 (20 IPv4 + 8 UDP bytes; empty when `full_data`
is no longer than 28), the result concatenates both and
`packets_decompressed` advances.  On failure an error is returned and
`decompression_failures` advances. -/
def SchcCompressor.decompress (dp : Except SchcError DecompressionOutput)
    (compressed_data : List Nat) (is_outgoing : Bool) (node_id : String)
    (stats : SchcCompressorStats) :
    Except String DecompressResult × SchcCompressorStats :=
  match dp with
  | Except.ok result =>
      let schc_bytes := (result.bits_consumed + 7) / 8
      let payload_start := min schc_bytes compressed_data.length
      let original_payload := compressed_data.drop payload_start
      let quic_header :=
        if 20 + 8 < result.full_data.length then result.full_data.drop (20 + 8)
        else []
      (Except.ok
        { decompressed_packet := quic_header ++ original_payload,
          rule_id := result.rule_id },
       { stats with packets_decompressed := stats.packets_decompressed + 1 })
  | Except.error _e =>
      (Except.error "Decompression failed",
       { stats with decompression_failures := stats.decompression_failures + 1 })

/-- Modelled from the spec: the full reconstructed header returned by the
missing `schc::decompress_packet` — "Assemble the reconstructed
Ethernet+IPv4+UDP+QUIC header in wire order" (spec section 4.5, step 4).
`eth`, `ip`, `udp` are the 14-, 20- and 8-byte reconstructed layer headers
and `quic` the reconstructed QUIC header bytes. -/
def specFullHeader (eth ip udp quic : List Nat) : List Nat :=
  eth ++ ip ++ udp ++ quic

/-!
Dynamic rule installation: `SchcCompressor::try_learn_quic_cids`
(schc_compressor.rs lines 278-340).  The update applied to the rule set
under the write lock (lines 322-329) removes, for each generated rule,
every existing rule with the same (rule id, rule id length), then appends
the generated rules.
-/

/-- The removal loop of `try_learn_quic_cids` (lines 324-328): for each new
rule, `retain` every old rule whose (id, length) differs. -/
def removeColliding (old newRules : List Rule) : List Rule :=
  newRules.foldl
    (fun acc nr =>
      acc.filter fun r =>
        !(r.rule_id == nr.rule_id && r.rule_id_length == nr.rule_id_length))
    old

/-- The full rule-set update of `try_learn_quic_cids` (lines 324-329):
removal followed by `extend`. -/
def applyRuleUpdate (old newRules : List Rule) : List Rule :=
  removeColliding old newRules ++ newRules

/-!
The dynamic-rule session.  The `QuicSession` type lives in the missing
`schc` crate; the constructor call is in the source
(`QuicSession::new(240, 250, 8, debug)`, schc_compressor.rs line 131) and
the pool behaviour is modelled from the spec.
-/

/-- Modelled from the spec: the `QuicSession` state of the missing `schc`
crate — "a pool of reserved dynamic rule IDs (range endpoints configured at
construction)" with a given rule-id bit-length (spec section 3); the pool
state machine is `Free → Assigned(pair)` with no free list (spec section
4.7), embedded as the next unassigned id. -/
structure QuicSession where
  dynamic_rule_start : Nat
  dynamic_rule_end : Nat
  rule_id_length : Nat
  debug : Bool
  next_dynamic_id : Nat
deriving DecidableEq, Repr

/-- `QuicSession::new(start, end, rule_id_length, debug)`; the pool starts
with every id in the range free. -/
def QuicSession.new (start stop len : Nat) (debug : Bool) : QuicSession :=
  ⟨start, stop, len, debug, start⟩

/-- Modelled from the spec: "Assign a rule id from the reserved pool"
(spec section 4.6, step 3); ids are handed out in order and never recycled
("No free list", spec section 4.7).  `none` when the pool is exhausted
("a free dynamic rule id remains", spec section 4.6). -/
def QuicSession.assignId (s : QuicSession) : Option (Nat × QuicSession) :=
  if s.next_dynamic_id ≤ s.dynamic_rule_end then
    some (s.next_dynamic_id, { s with next_dynamic_id := s.next_dynamic_id + 1 })
  else none

/-- Modelled from the spec: dynamic rule synthesis — "Clone the matched base
rule R … Assign a rule id from the reserved pool" (spec section 4.6); the
generated rule carries the assigned id and the session's configured rule-id
bit-length.  The field-descriptor tightening acts on the abstract
descriptor list and is irrelevant to the id-range claim. -/
def QuicSession.genDynamicRule (s : QuicSession) (base : Rule) :
    Option (Rule × QuicSession) :=
  match s.assignId with
  | some (id, s') =>
      some ({ base with rule_id := id, rule_id_length := s.rule_id_length }, s')
  | none => none

/-- The `QuicSession` construction of `SchcCompressor::from_files`
(schc_compressor.rs lines 129-134): when dynamic QUIC rules are enabled the
session is `QuicSession::new(240, 250, 8, debug)`, otherwise there is no
session. -/
def fromFilesQuicSession (dynamic_quic_rules : Bool) (debug : Bool) :
    Option QuicSession :=
  if dynamic_quic_rules then some (QuicSession.new 240 250 8 debug) else none

/-!
The observer: `SchcObserver::observe` (schc_observer.rs lines 86-187).
-/

/-- `SchcStats` (schc_observer.rs lines 16-22). -/
structure SchcStats where
  packets_processed : Nat
  packets_matched : Nat
  total_original_bits : Nat
  total_compressed_bits : Nat
deriving DecidableEq, Repr

/-- `SchcObserver` (schc_observer.rs lines 48-54).  The rule tree and the
field context live in the missing `schc` crate and are opaque to the
observer itself, so they are abstract here. -/
structure SchcObserver where
  tree : Nat
  rules : List Rule
  field_context : Nat
  stats : SchcStats
  debug : Bool
deriving DecidableEq, Repr

/-- What happens after `observe` has incremented `packets_processed`:
`build_synthetic_packet` panics (non-IPv4 address, schc_observer.rs lines
200-205), or `compress_packet` fails, or it succeeds with an output. -/
inductive ObserveOutcome where
  | panicked
  | failed (e : SchcError)
  | matched (out : CompressionOutput)

/-- `SchcObserver::observe` (schc_observer.rs lines 86-187):
`packets_processed` is incremented first (line 93, before the synthetic
frame is built, so it advances even on the panic path); on a successful
`compress_packet` the match counter and both bit totals advance (lines
149-156); on failure nothing else changes (lines 179-185).  The observer
takes `&self` and only its atomic counters are written, so the tree, rule
list and field context are carried over unchanged; the packet bytes are a
shared immutable slice. -/
def SchcObserver.observe (o : SchcObserver) (outcome : ObserveOutcome) :
    SchcObserver :=
  let st := { o.stats with packets_processed := o.stats.packets_processed + 1 }
  match outcome with
  | ObserveOutcome.panicked => { o with stats := st }
  | ObserveOutcome.failed _ => { o with stats := st }
  | ObserveOutcome.matched r =>
      { o with stats :=
          { st with
              packets_matched := st.packets_matched + 1,
              total_original_bits := st.total_original_bits + r.original_header_bits,
              total_compressed_bits := st.total_compressed_bits + r.compressed_header_bits } }

/-!
Concurrency of dynamic rule installation against compression.

`SchcCompressor` guards the rule set and the tree by two independent
`RwLock`s.  A compression takes `tree.read()` then `rules.read()` and holds
both until it finishes (schc_compressor.rs lines 178-180, released at lines
243-244).  `try_learn_quic_cids` takes `rules.write()`, mutates the rules
and builds the new tree, releases the rules lock (line 333), and only then
takes `tree.write()` and swaps (lines 335-336).

The model reduces each lock-protected section to one atomic event and keeps
a generation number for the rules and for the tree (the tree's generation
is the generation of the rule set it was built from; the writer installs
generation 1 over initial generation 0).  Blocking is modelled by marking a
schedule infeasible (`ok := false`) when an event would need a lock an
active reader still holds; every real execution corresponds to a feasible
schedule.
-/

/-- Atomic events of one writer (dynamic rule installation) interleaved
with one reader (a compression). -/
inductive LockEv where
  | updRules
  | swapTree
  | rdTree
  | rdRules
  | relBoth
deriving DecidableEq, Repr

/-- State of the two-lock system: current generations, which read guards
the reader holds, what the reader observed, and feasibility so far. -/
structure LockState where
  rulesGen : Nat
  treeGen : Nat
  treeReadHeld : Bool
  rulesReadHeld : Bool
  obsTree : Nat
  obsRules : Nat
  ok : Bool
deriving DecidableEq, Repr

/-- One atomic event.  `updRules` is the writer's `rules.write()` section
(retain + extend + `build_tree`), `swapTree` its `tree.write()` section;
`rdTree` / `rdRules` are the reader's guard acquisitions together with its
use of the guarded value, `relBoth` releases both read guards.  A write
event while the corresponding read guard is held is infeasible. -/
def lockStep (s : LockState) : LockEv → LockState
  | LockEv.updRules =>
      if s.rulesReadHeld then { s with ok := false } else { s with rulesGen := 1 }
  | LockEv.swapTree =>
      if s.treeReadHeld then { s with ok := false } else { s with treeGen := 1 }
  | LockEv.rdTree => { s with treeReadHeld := true, obsTree := s.treeGen }
  | LockEv.rdRules => { s with rulesReadHeld := true, obsRules := s.rulesGen }
  | LockEv.relBoth => { s with treeReadHeld := false, rulesReadHeld := false }

/-- Initial state: rule set and tree of generation 0, no guards held. -/
def initLockState : LockState :=
  ⟨0, 0, false, false, 0, 0, true⟩

/-- Run a schedule from the initial state. -/
def runSchedule (sched : List LockEv) : LockState :=
  sched.foldl lockStep initLockState

/-- The writer's program: mutate the rules and build the new tree under
`rules.write()`, then swap the tree under `tree.write()`. -/
def writerProg : List LockEv :=
  [LockEv.updRules, LockEv.swapTree]

/-- The reader's program: acquire `tree.read()`, then `rules.read()`, use
both, release both. -/
def readerProg : List LockEv :=
  [LockEv.rdTree, LockEv.rdRules, LockEv.relBoth]

/-- All interleavings of two event sequences (each keeps its order), with a
step bound making the recursion structural; each step consumes one event, so
a bound of the combined length is never hit (the bound-zero fallback is
unreachable from `interleavings`). -/
def interleavingsFuel : Nat → List LockEv → List LockEv → List (List LockEv)
  | 0, xs, ys => [xs ++ ys]
  | _ + 1, [], ys => [ys]
  | _ + 1, x :: xs, [] => [x :: xs]
  | fuel + 1, x :: xs, y :: ys =>
      ((interleavingsFuel fuel xs (y :: ys)).map fun t => x :: t) ++
        ((interleavingsFuel fuel (x :: xs) ys).map fun t => y :: t)

/-- All interleavings of two event sequences (each keeps its order). -/
def interleavings (xs ys : List LockEv) : List (List LockEv) :=
  interleavingsFuel (xs.length + ys.length) xs ys

/-!
Helper lemmas.
-/

/-- Trailing zero padding contributes nothing to a big-endian word sum,
whatever the phase, word index and skip index: each zero byte contributes
`0` or `0 * 256`. -/
theorem sumWordsAux_append_zeros (xs : List Nat) (k : Nat) :
    ∀ (w : Nat) (high : Bool) (skip : Nat),
      sumWordsAux (xs ++ List.replicate k 0) w high skip = sumWordsAux xs w high skip := by
  induction xs with
  | nil =>
      simp only [List.nil_append]
      induction k with
      | zero => intro w high skip; simp [sumWordsAux]
      | succ n ih =>
          intro w high skip
          rw [List.replicate_succ]
          simp [sumWordsAux, ih]
  | cons b rest ih =>
      intro w high skip
      simp only [List.cons_append, sumWordsAux, List.append_eq, ih]

/-- The guarded tail extraction of `decompress` equals a plain `drop`: when
the list is no longer than `n` both sides are empty. -/
theorem ite_drop_eq_drop (l : List Nat) (n : Nat) :
    (if n < l.length then l.drop n else []) = l.drop n := by
  split
  · rfl
  · exact (List.drop_eq_nil_of_le (by omega)).symm

/-- Clamping the drop count to the length does not change a `drop`: past the
end both sides are empty. -/
theorem drop_min_length (l : List Nat) (n : Nat) :
    l.drop (min n l.length) = l.drop n := by
  rcases le_total n l.length with h | h
  · rw [min_eq_left h]
  · rw [min_eq_right h, List.drop_length, (List.drop_eq_nil_of_le h).symm]

/-- A survivor of the removal loop of `try_learn_quic_cids` was already in
the rule set and shares its (rule id, rule id length) with none of the
generated rules. -/
theorem removeColliding_key_disjoint :
    ∀ (newRules old : List Rule) (r : Rule),
      r ∈ removeColliding old newRules →
      r ∈ old ∧ ∀ n ∈ newRules, ruleKey r ≠ ruleKey n := by
  intro newRules
  induction newRules with
  | nil =>
      intro old r h
      refine ⟨h, ?_⟩
      intro n hn
      simp at hn
  | cons n0 rest ih =>
      intro old r h
      have h' : r ∈ removeColliding
          (old.filter fun q =>
            !(q.rule_id == n0.rule_id && q.rule_id_length == n0.rule_id_length)) rest := h
      obtain ⟨hf, hrest⟩ := ih _ r h'
      rw [List.mem_filter] at hf
      obtain ⟨hold, hp⟩ := hf
      refine ⟨hold, ?_⟩
      intro m hm
      rcases List.mem_cons.mp hm with hmn | hm'
      · subst hmn
        intro heq
        have hid : r.rule_id = m.rule_id := congrArg Prod.fst heq
        have hlen : r.rule_id_length = m.rule_id_length := congrArg Prod.snd heq
        rw [hid, hlen] at hp
        simp at hp
      · exact hrest m hm'

/-- The removal loop of `try_learn_quic_cids` only deletes rules: its result
is a sublist of the previous rule set. -/
theorem removeColliding_sublist :
    ∀ (newRules old : List Rule), (removeColliding old newRules).Sublist old := by
  intro newRules
  induction newRules with
  | nil => intro old; exact List.Sublist.refl old
  | cons n0 rest ih =>
      intro old
      exact (ih _).trans (List.filter_sublist old)

/-!
Claim theorems.
-/

/-- C1: when `compress_packet` finds no matching rule (returns an error),
`SchcCompressor::compress` returns a `CompressResult` whose bytes equal the
input payload with `success = false`, and exactly one counter advances:
`compression_failures` by one, with `packets_compressed`,
`total_original_header_bits` and `total_compressed_header_bits` (and the
decompression counters) unchanged. -/
theorem compress_failure_passthrough (e : SchcError) (quic_payload : List Nat)
    (src dst : SocketAddr) (is_outgoing : Bool) (node_id : String)
    (st : SchcCompressorStats)
    (h : (buildSyntheticPacket quic_payload src dst).isSome = true) :
    SchcCompressor.compress (Except.error e) quic_payload src dst is_outgoing node_id st =
      some ({ compressed_packet := quic_payload, original_header_size := 0,
              compressed_header_size := 0, rule_id := 0, success := false },
            { st with compression_failures := st.compression_failures + 1 }) := by
  obtain ⟨syn, hs⟩ := Option.isSome_iff_exists.mp h
  simp [SchcCompressor.compress, hs]

/-- Witness for `compress_failure_passthrough` at a concrete failed
compression. -/
theorem compress_failure_passthrough_witness :
    ((buildSyntheticPacket [1, 2, 3] ⟨IpAddr.v4 10 0 0 1, 1000⟩
        ⟨IpAddr.v4 10 0 0 2, 2000⟩).isSome = true) ∧
    SchcCompressor.compress (Except.error SchcError.noMatchingRule) [1, 2, 3]
        ⟨IpAddr.v4 10 0 0 1, 1000⟩ ⟨IpAddr.v4 10 0 0 2, 2000⟩ true "client" emptyStats =
      some ({ compressed_packet := [1, 2, 3], original_header_size := 0,
              compressed_header_size := 0, rule_id := 0, success := false },
            { emptyStats with compression_failures := emptyStats.compression_failures + 1 }) :=
  ⟨rfl,
   compress_failure_passthrough SchcError.noMatchingRule [1, 2, 3]
     ⟨IpAddr.v4 10 0 0 1, 1000⟩ ⟨IpAddr.v4 10 0 0 2, 2000⟩ true "client" emptyStats rfl⟩

/-- C4: on every successful compression the returned packet is the SCHC data
followed by the payload past `app_payload_start`, where `app_payload_start`
is `ceil(original_header_bits/8)` minus the 28 IPv4+UDP header bytes
(saturating) truncated to the payload length; the header sizes, rule id,
success flag and the three compression counters are as the source computes
them. -/
theorem compress_success_layout (out : CompressionOutput) (quic_payload : List Nat)
    (src dst : SocketAddr) (is_outgoing : Bool) (node_id : String)
    (st : SchcCompressorStats)
    (h : (buildSyntheticPacket quic_payload src dst).isSome = true) :
    SchcCompressor.compress (Except.ok out) quic_payload src dst is_outgoing node_id st =
      some ({ compressed_packet :=
                out.data ++ quic_payload.drop
                  (min ((out.original_header_bits + 7) / 8 - (20 + 8)) quic_payload.length),
              original_header_size := (out.original_header_bits + 7) / 8,
              compressed_header_size := (out.compressed_header_bits + 7) / 8,
              rule_id := out.rule_id, success := true },
            { st with
                packets_compressed := st.packets_compressed + 1,
                total_original_header_bits :=
                  st.total_original_header_bits + out.original_header_bits,
                total_compressed_header_bits :=
                  st.total_compressed_header_bits + out.compressed_header_bits }) := by
  obtain ⟨syn, hs⟩ := Option.isSome_iff_exists.mp h
  simp [SchcCompressor.compress, hs]

/-- Witness for `compress_success_layout`: a 45-byte original header
(360 bits) on a 3-byte payload consumes the whole payload as QUIC header
(45 - 28 = 17 truncated to 3), leaving only the SCHC data. -/
theorem compress_success_layout_witness :
    ((buildSyntheticPacket [7, 8, 9] ⟨IpAddr.v4 10 0 0 1, 1000⟩
        ⟨IpAddr.v4 10 0 0 2, 2000⟩).isSome = true) ∧
    SchcCompressor.compress
        (Except.ok { rule_id := 1, rule_id_length := 4, data := [171],
                     original_header_bits := 360, compressed_header_bits := 12 })
        [7, 8, 9] ⟨IpAddr.v4 10 0 0 1, 1000⟩ ⟨IpAddr.v4 10 0 0 2, 2000⟩ true "client"
        emptyStats =
      some ({ compressed_packet := [171], original_header_size := 45,
              compressed_header_size := 2, rule_id := 1, success := true },
            { emptyStats with
                packets_compressed := 1,
                total_original_header_bits := 360,
                total_compressed_header_bits := 12 }) :=
  ⟨rfl,
   compress_success_layout
     { rule_id := 1, rule_id_length := 4, data := [171],
       original_header_bits := 360, compressed_header_bits := 12 }
     [7, 8, 9] ⟨IpAddr.v4 10 0 0 1, 1000⟩ ⟨IpAddr.v4 10 0 0 2, 2000⟩ true "client"
     emptyStats rfl⟩

/-- C3, counterexample: `compress` does panic on an IPv6 source address
(`panic!("SCHC compressor only supports IPv4")`, schc_compressor.rs lines
432-434), modelled as `none`; the claim that it returns normally for every
combination of payload and socket addresses, including IPv6, is false. -/
theorem compress_ipv6_panics :
    SchcCompressor.compress (Except.error SchcError.noMatchingRule) []
      ⟨IpAddr.v6, 1000⟩ ⟨IpAddr.v4 10 0 0 2, 2000⟩ false "n1" emptyStats = none := rfl

/-- C3, amended: for IPv4 source and destination addresses and a payload
that fits the 2000-byte scratch buffer (at most 1972 bytes), `compress`
returns normally for every `compress_packet` outcome; `decompress` is total
in the embedding because its source has no panicking operation. -/
theorem compress_total_amended (cp : Except SchcError CompressionOutput)
    (quic_payload : List Nat) (src dst : SocketAddr) (is_outgoing : Bool)
    (node_id : String) (st : SchcCompressorStats)
    (h1 : src.ip.isV4 = true) (h2 : dst.ip.isV4 = true)
    (h3 : quic_payload.length ≤ 1972) :
    (SchcCompressor.compress cp quic_payload src dst is_outgoing node_id st).isSome = true := by
  obtain ⟨sip, sport⟩ := src
  obtain ⟨dip, dport⟩ := dst
  cases sip with
  | v6 => simp [IpAddr.isV4] at h1
  | v4 a b c d =>
      cases dip with
      | v6 => simp [IpAddr.isV4] at h2
      | v4 a2 b2 c2 d2 =>
          cases cp <;> simp [SchcCompressor.compress, buildSyntheticPacket, h3]

/-- Witness for `compress_total_amended` at a concrete IPv4 call. -/
theorem compress_total_amended_witness :
    ((IpAddr.v4 10 0 0 1).isV4 = true) ∧ ((IpAddr.v4 10 0 0 2).isV4 = true) ∧
    (([5, 6] : List Nat).length ≤ 1972) ∧
    (SchcCompressor.compress (Except.error SchcError.parserError) [5, 6]
      ⟨IpAddr.v4 10 0 0 1, 1000⟩ ⟨IpAddr.v4 10 0 0 2, 2000⟩ false "n2"
      emptyStats).isSome = true :=
  ⟨rfl, rfl, by decide,
   compress_total_amended (Except.error SchcError.parserError) [5, 6]
     ⟨IpAddr.v4 10 0 0 1, 1000⟩ ⟨IpAddr.v4 10 0 0 2, 2000⟩ false "n2" emptyStats
     rfl rfl (by decide)⟩

/-- C2, counterexample: with the full reconstructed header modelled from the
spec (a 14-byte Ethernet, 20-byte IPv4 and 8-byte UDP header before the QUIC
bytes), `decompress` does not return the QUIC bytes followed by the input
past `ceil(bits_consumed/8)`: it strips only 28 bytes from `full_data`, so
the 14 Ethernet bytes shift the cut and six IPv4 and all UDP bytes leak into
the result. -/
theorem decompress_strip_counterexample :
    (SchcCompressor.decompress
        (Except.ok { rule_id := 0,
                     full_data := specFullHeader (List.replicate 14 1)
                       (List.replicate 20 2) (List.replicate 8 3) [9],
                     header_data := [],
                     bits_consumed := 8 })
        [240, 5, 6] false "n3" emptyStats).1 ≠
      Except.ok { decompressed_packet := [9] ++ ([240, 5, 6] : List Nat).drop ((8 + 7) / 8),
                  rule_id := 0 } := by
  decide

/-- C2, amended: on every successful decompression the returned packet is
`full_data` with its first 28 bytes removed (the IPv4+UDP portion under the
source's assumption that `full_data` carries no Ethernet header), followed
by the input bytes past `ceil(bits_consumed/8)`. -/
theorem decompress_strip_amended (out : DecompressionOutput) (data : List Nat)
    (is_outgoing : Bool) (node_id : String) (st : SchcCompressorStats) :
    (SchcCompressor.decompress (Except.ok out) data is_outgoing node_id st).1 =
      Except.ok { decompressed_packet :=
                    out.full_data.drop 28 ++ data.drop ((out.bits_consumed + 7) / 8),
                  rule_id := out.rule_id } := by
  simp only [SchcCompressor.decompress]
  rw [ite_drop_eq_drop, drop_min_length]

/-- C8: on every failed decompression `decompress` returns an error (never a
passthrough), `decompression_failures` advances by one and every other
counter is unchanged; on every successful decompression
`packets_decompressed` advances by one and every other counter is
unchanged. -/
theorem decompress_error_counters (data : List Nat) (is_outgoing : Bool)
    (node_id : String) (st : SchcCompressorStats) :
    (∀ e : SchcError,
       (SchcCompressor.decompress (Except.error e) data is_outgoing node_id st).1 =
         Except.error "Decompression failed" ∧
       (SchcCompressor.decompress (Except.error e) data is_outgoing node_id st).2 =
         { st with decompression_failures := st.decompression_failures + 1 }) ∧
    (∀ out : DecompressionOutput,
       (SchcCompressor.decompress (Except.ok out) data is_outgoing node_id st).2 =
         { st with packets_decompressed := st.packets_decompressed + 1 }) := by
  exact ⟨fun e => ⟨rfl, rfl⟩, fun out => rfl⟩

/-- C5, counterexample: the UDP checksum of the synthetic frame is not the
RFC 768 IPv4-pseudoheader checksum of the UDP datagram: pnet computes it
over the whole 2000-byte scratch buffer, so its pseudo-header length
contribution is 2000 instead of the UDP length.  For an empty payload from
10.0.0.1:1000 to 10.0.0.2:2000 the frame carries checksum 0xD85B while the
RFC value is 0xE023. -/
theorem build_synthetic_counterexample :
    buildSyntheticPacket [] ⟨IpAddr.v4 10 0 0 1, 1000⟩ ⟨IpAddr.v4 10 0 0 2, 2000⟩ ≠
      some (claimedFrame [] 1000 2000 10 0 0 1 10 0 0 2
        (ipv4HeaderChecksum 28 10 0 0 1 10 0 0 2)
        (udpChecksumRfc 1000 2000 10 0 0 1 10 0 0 2 [])) := by
  have hbuf :
      (be16 1000 ++ be16 2000 ++ be16 (8 + ([] : List Nat).length) ++ [0x00, 0x00] ++
        ([] : List Nat) ++ List.replicate (1992 - ([] : List Nat).length) 0) =
      ([3, 232, 7, 208, 0, 8, 0, 0] : List Nat) ++ List.replicate 1992 0 := by
    norm_num [be16]
  have hsum : sumWordsSkip
      (([3, 232, 7, 208, 0, 8, 0, 0] : List Nat) ++ List.replicate 1992 0) 3 = 3008 := by
    rw [sumWordsSkip, sumWordsAux_append_zeros]
    decide
  have hcode : udpChecksumCode 1000 2000 10 0 0 1 10 0 0 2 [] = 55387 := by
    rw [udpChecksumCode, hbuf, hsum]
    decide
  have hrfc : udpChecksumRfc 1000 2000 10 0 0 1 10 0 0 2 [] = 57379 := by decide
  have hip : ipv4HeaderChecksum 28 10 0 0 1 10 0 0 2 = 9935 := by decide
  intro h
  rw [hrfc, hip] at h
  have hb : buildSyntheticPacket [] ⟨IpAddr.v4 10 0 0 1, 1000⟩ ⟨IpAddr.v4 10 0 0 2, 2000⟩ =
      some (claimedFrame [] 1000 2000 10 0 0 1 10 0 0 2 9935 55387) := by
    rw [← hcode, ← hip]
    simp [buildSyntheticPacket, ethernetHeader, mkIpv4Header, mkUdpHeader, claimedFrame,
      List.append_assoc, hip]
  rw [hb] at h
  simp [claimedFrame, be16] at h

/-- C5, amended: for IPv4 addresses and a payload of at most 1972 bytes the
synthetic frame is exactly the claimed Ethernet, IPv4 and UDP headers and
the payload, with every field value as the claim lists it — except that the
UDP checksum is the pseudo-header checksum computed by pnet over the whole
2000-byte scratch buffer (pseudo-header length 2000) rather than over the
UDP datagram alone. -/
theorem build_synthetic_amended (payload : List Nat)
    (sp dp s0 s1 s2 s3 d0 d1 d2 d3 : Nat)
    (h : payload.length ≤ 1972) :
    buildSyntheticPacket payload ⟨IpAddr.v4 s0 s1 s2 s3, sp⟩ ⟨IpAddr.v4 d0 d1 d2 d3, dp⟩ =
      some (claimedFrame payload sp dp s0 s1 s2 s3 d0 d1 d2 d3
        (ipv4HeaderChecksum (28 + payload.length) s0 s1 s2 s3 d0 d1 d2 d3)
        (udpChecksumCode sp dp s0 s1 s2 s3 d0 d1 d2 d3 payload)) := by
  simp [buildSyntheticPacket, h, ethernetHeader, mkIpv4Header, mkUdpHeader, claimedFrame,
    List.append_assoc]

/-- Witness for `build_synthetic_amended` at a concrete frame. -/
theorem build_synthetic_amended_witness :
    (([11] : List Nat).length ≤ 1972) ∧
    buildSyntheticPacket [11] ⟨IpAddr.v4 192 168 0 1, 4433⟩ ⟨IpAddr.v4 192 168 0 2, 443⟩ =
      some (claimedFrame [11] 4433 443 192 168 0 1 192 168 0 2
        (ipv4HeaderChecksum (28 + ([11] : List Nat).length) 192 168 0 1 192 168 0 2)
        (udpChecksumCode 4433 443 192 168 0 1 192 168 0 2 [11])) :=
  ⟨by decide,
   build_synthetic_amended [11] 4433 443 192 168 0 1 192 168 0 2 (by decide)⟩

/-- C6: after the rule-set update of `try_learn_quic_cids`, no surviving
pre-existing rule shares a (rule id, rule id length) with any generated
rule — in particular a dynamic rule's (id, L) never coexists with a static
rule's identical (id, L) — and if the previous rule set and the generated
batch each hold at most one rule per (id, L), so does the updated rule
set. -/
theorem rule_update_unique (old newRules : List Rule)
    (hold : (old.map ruleKey).Nodup) (hnew : (newRules.map ruleKey).Nodup) :
    (∀ r ∈ removeColliding old newRules, ∀ n ∈ newRules, ruleKey r ≠ ruleKey n) ∧
    ((applyRuleUpdate old newRules).map ruleKey).Nodup := by
  constructor
  · intro r hr
    exact (removeColliding_key_disjoint _ _ _ hr).2
  · rw [applyRuleUpdate, List.map_append, List.nodup_append]
    refine ⟨hold.sublist ((removeColliding_sublist _ _).map ruleKey), hnew, ?_⟩
    intro a ha hb
    rw [List.mem_map] at ha hb
    obtain ⟨r, hr, rfl⟩ := ha
    obtain ⟨n, hn, heq⟩ := hb
    exact (removeColliding_key_disjoint _ _ _ hr).2 n hn heq.symm

/-- Witness for `rule_update_unique`: a static rule set holding (5,8) and
(240,8) updated with generated rules (240,8) and (241,8). -/
theorem rule_update_unique_witness :
    ((([⟨5, 8, [], none⟩, ⟨240, 8, [], none⟩] : List Rule).map ruleKey).Nodup ∧
     (([⟨240, 8, [1], none⟩, ⟨241, 8, [2], none⟩] : List Rule).map ruleKey).Nodup) ∧
    ((∀ r ∈ removeColliding [⟨5, 8, [], none⟩, ⟨240, 8, [], none⟩]
          [⟨240, 8, [1], none⟩, ⟨241, 8, [2], none⟩],
        ∀ n ∈ ([⟨240, 8, [1], none⟩, ⟨241, 8, [2], none⟩] : List Rule),
          ruleKey r ≠ ruleKey n) ∧
     ((applyRuleUpdate [⟨5, 8, [], none⟩, ⟨240, 8, [], none⟩]
          [⟨240, 8, [1], none⟩, ⟨241, 8, [2], none⟩]).map ruleKey).Nodup) :=
  ⟨⟨by decide, by decide⟩,
   rule_update_unique [⟨5, 8, [], none⟩, ⟨240, 8, [], none⟩]
     [⟨240, 8, [1], none⟩, ⟨241, 8, [2], none⟩] (by decide) (by decide)⟩

/-- C7: with dynamic QUIC rules enabled, `from_files` constructs the session
as `QuicSession::new(240, 250, 8, debug)`, and from any session state in
that configuration (an invariant of assignment), a generated dynamic rule
carries a rule id in 240..=250 and rule-id bit-length 8, the configuration
persisting in the successor state. -/
theorem dynamic_rule_id_range (debug : Bool) (s : QuicSession) (base : Rule)
    (r : Rule) (s' : QuicSession)
    (h1 : s.dynamic_rule_start = 240) (h2 : s.dynamic_rule_end = 250)
    (h3 : s.rule_id_length = 8) (h4 : 240 ≤ s.next_dynamic_id)
    (h5 : s.genDynamicRule base = some (r, s')) :
    (fromFilesQuicSession true debug = some (QuicSession.new 240 250 8 debug) ∧
     (QuicSession.new 240 250 8 debug).dynamic_rule_start = 240 ∧
     (QuicSession.new 240 250 8 debug).dynamic_rule_end = 250 ∧
     (QuicSession.new 240 250 8 debug).rule_id_length = 8 ∧
     (QuicSession.new 240 250 8 debug).next_dynamic_id = 240) ∧
    (240 ≤ r.rule_id ∧ r.rule_id ≤ 250 ∧ r.rule_id_length = 8) ∧
    (s'.dynamic_rule_start = 240 ∧ s'.dynamic_rule_end = 250 ∧
     s'.rule_id_length = 8 ∧ 240 ≤ s'.next_dynamic_id) := by
  refine ⟨⟨rfl, rfl, rfl, rfl, rfl⟩, ?_⟩
  rw [QuicSession.genDynamicRule, QuicSession.assignId] at h5
  by_cases hle : s.next_dynamic_id ≤ s.dynamic_rule_end
  · rw [if_pos hle] at h5
    simp only [Option.some.injEq, Prod.mk.injEq] at h5
    obtain ⟨hr, hs'⟩ := h5
    subst hr
    subst hs'
    refine ⟨⟨h4, ?_, h3⟩, ⟨h1, h2, h3, ?_⟩⟩
    · show s.next_dynamic_id ≤ 250
      omega
    · show 240 ≤ s.next_dynamic_id + 1
      omega
  · rw [if_neg hle] at h5
    exact absurd h5 (by simp)

/-- Witness for `dynamic_rule_id_range`: the first assignment from the
freshly constructed session hands out rule id 240 with length 8. -/
theorem dynamic_rule_id_range_witness :
    ((QuicSession.new 240 250 8 false).dynamic_rule_start = 240 ∧
     (QuicSession.new 240 250 8 false).dynamic_rule_end = 250 ∧
     (QuicSession.new 240 250 8 false).rule_id_length = 8 ∧
     240 ≤ (QuicSession.new 240 250 8 false).next_dynamic_id ∧
     (QuicSession.new 240 250 8 false).genDynamicRule ⟨1, 4, [], none⟩ =
       some (⟨240, 8, [], none⟩, ⟨240, 250, 8, false, 241⟩)) ∧
    ((fromFilesQuicSession true false = some (QuicSession.new 240 250 8 false) ∧
      (QuicSession.new 240 250 8 false).dynamic_rule_start = 240 ∧
      (QuicSession.new 240 250 8 false).dynamic_rule_end = 250 ∧
      (QuicSession.new 240 250 8 false).rule_id_length = 8 ∧
      (QuicSession.new 240 250 8 false).next_dynamic_id = 240) ∧
     (240 ≤ (240 : Nat) ∧ (240 : Nat) ≤ 250 ∧ (8 : Nat) = 8) ∧
     ((240 : Nat) = 240 ∧ (250 : Nat) = 250 ∧ (8 : Nat) = 8 ∧ 240 ≤ (241 : Nat))) :=
  ⟨⟨rfl, rfl, rfl, by decide, by decide⟩,
   dynamic_rule_id_range false (QuicSession.new 240 250 8 false) ⟨1, 4, [], none⟩
     ⟨240, 8, [], none⟩ ⟨240, 250, 8, false, 241⟩ rfl rfl rfl (by decide) (by decide)⟩

/-- C9, counterexample: it is not the case that every feasible interleaving
of one compression with one dynamic rule installation pairs tree and rule
set consistently.  The schedule in which the reader acquires `tree.read()`,
the writer then completes its `rules.write()` section, and the reader then
acquires `rules.read()` is feasible under the two independent locks (the
writer's `tree.write()` waits until the reader releases) and makes the
reader observe the old tree (generation 0) with the new rule set
(generation 1). -/
theorem tree_swap_counterexample :
    ¬ (∀ sched ∈ interleavings writerProg readerProg,
         (runSchedule sched).ok = true →
         (runSchedule sched).obsTree = (runSchedule sched).obsRules) := by
  intro h
  have hbad := h
    [LockEv.rdTree, LockEv.updRules, LockEv.rdRules, LockEv.relBoth, LockEv.swapTree]
    (by decide) (by decide)
  exact absurd hbad (by decide)

/-- C9, amended: the rules lock is released before the tree lock is taken,
so a reader may pair the new rule set with the old tree; what does hold in
every feasible interleaving is that the reader never observes the new tree
with the old rule set (the observed tree generation never exceeds the
observed rules generation). -/
theorem tree_swap_amended :
    ∀ sched ∈ interleavings writerProg readerProg,
      (runSchedule sched).ok = true →
      (runSchedule sched).obsTree ≤ (runSchedule sched).obsRules := by
  have hall : (interleavings writerProg readerProg).all
      (fun sched => !(runSchedule sched).ok ||
        decide ((runSchedule sched).obsTree ≤ (runSchedule sched).obsRules)) = true := by
    decide
  intro sched hs hok
  have h2 := List.all_eq_true.mp hall sched hs
  rw [hok] at h2
  simpa using h2

/-- Witness for `tree_swap_amended`: the reader running entirely after the
writer observes the new tree with the new rule set. -/
theorem tree_swap_amended_witness :
    ((writerProg ++ readerProg) ∈ interleavings writerProg readerProg) ∧
    (runSchedule (writerProg ++ readerProg)).ok = true ∧
    (runSchedule (writerProg ++ readerProg)).obsTree ≤
      (runSchedule (writerProg ++ readerProg)).obsRules :=
  ⟨by decide, by decide, tree_swap_amended (writerProg ++ readerProg) (by decide) (by decide)⟩

/-- C10: every `observe` call increments `packets_processed` by exactly one
and leaves the observer's tree, rule list, field context and debug flag
unchanged (the packet bytes are a shared immutable slice in the source);
the match counter and the two bit totals advance only when `compress_packet`
succeeds — by one, by the result's `original_header_bits` and by its
`compressed_header_bits` respectively — and stay unchanged on failure and
on the panic path. -/
theorem observe_frame_effect (o : SchcObserver) (outcome : ObserveOutcome) :
    ((o.observe outcome).tree = o.tree ∧ (o.observe outcome).rules = o.rules ∧
     (o.observe outcome).field_context = o.field_context ∧
     (o.observe outcome).debug = o.debug) ∧
    (o.observe outcome).stats.packets_processed = o.stats.packets_processed + 1 ∧
    ((o.observe ObserveOutcome.panicked).stats.packets_matched = o.stats.packets_matched ∧
     (o.observe ObserveOutcome.panicked).stats.total_original_bits =
       o.stats.total_original_bits ∧
     (o.observe ObserveOutcome.panicked).stats.total_compressed_bits =
       o.stats.total_compressed_bits) ∧
    (∀ e : SchcError,
      (o.observe (ObserveOutcome.failed e)).stats.packets_matched =
        o.stats.packets_matched ∧
      (o.observe (ObserveOutcome.failed e)).stats.total_original_bits =
        o.stats.total_original_bits ∧
      (o.observe (ObserveOutcome.failed e)).stats.total_compressed_bits =
        o.stats.total_compressed_bits) ∧
    (∀ r : CompressionOutput,
      (o.observe (ObserveOutcome.matched r)).stats.packets_matched =
        o.stats.packets_matched + 1 ∧
      (o.observe (ObserveOutcome.matched r)).stats.total_original_bits =
        o.stats.total_original_bits + r.original_header_bits ∧
      (o.observe (ObserveOutcome.matched r)).stats.total_compressed_bits =
        o.stats.total_compressed_bits + r.compressed_header_bits) := by
  refine ⟨?_, ?_, ⟨rfl, rfl, rfl⟩, fun e => ⟨rfl, rfl, rfl⟩, fun r => ⟨rfl, rfl, rfl⟩⟩
  · cases outcome <;> exact ⟨rfl, rfl, rfl, rfl⟩
  · cases outcome <;> rfl
